import Mathlib

/-!
# Verification of the InOrbit Edge Executor mission engine

Shallow embedding of the mission execution engine of `inorbit_edge_executor`:
the step data model, the behavior-tree compilation and execution semantics,
checkpoint serialization, and the worker pool. The repository ships the engine
as a package (`inorbit_edge_executor.behavior_tree`, `worker_pool`, `mission`,
`datatypes`) whose sources are not included here; the engine definitions below
are modelled from the specification's description of those modules, while the
definitions for the example program (`MyWaypointNode`, the demo mission) follow
`src/example.py` directly.
-/

namespace EdgeExecutor

/-- Node lifecycle states, from the spec's state machine
`PENDING → RUNNING → {SUCCEEDED, FAILED, CANCELLED}`. -/
inductive NodeState where
  | pending
  | running
  | succeeded
  | failed
  | cancelled
deriving DecidableEq, Repr

/-- Terminal states of the node state machine. -/
def NodeState.isTerminal : NodeState → Bool
  | .succeeded => true
  | .failed => true
  | .cancelled => true
  | _ => false

/-- Pose payload of a `PoseWaypoint` step: `{x, y, theta, frameId, waypointId}`. -/
structure Pose where
  x : Int
  y : Int
  theta : Int
  frameId : String
  waypointId : String
deriving DecidableEq, Repr

/-- Mission-scoped data: an ordered key/value record, merged into by `SetData`. -/
abbrev Data := List (String × String)

/-- Merge one key/value pair into mission data, replacing an existing key
(dict-update semantics). -/
def insertKV (d : Data) (kv : String × String) : Data :=
  match d with
  | [] => [kv]
  | (k, v) :: rest =>
    if k = kv.1 then (k, kv.2) :: rest else (k, v) :: insertKV rest kv

/-- Merge a `SetData` payload into mission-scoped data. -/
def mergeData (d : Data) (payload : Data) : Data :=
  payload.foldl insertKV d

/-- Externally observable events of one mission execution: a leaf behavior
running, and an external task being marked complete (`completeTask`). -/
inductive Effect where
  | leafRun (label : String)
  | taskComplete (taskId : String)
deriving DecidableEq, Repr

mutual
/-- A compiled behavior-tree node, carrying its current lifecycle state so that
an in-progress tree can be checkpointed and resumed. Composite kinds are the
sequence and the conditional; leaf kinds are the data-set and the waypoint.
A conditional holds both compiled branches (the builder compiles `then` and
`else` eagerly) plus the branch selection recorded once the expression has
been evaluated (the node cursor of a checkpoint). -/
inductive SNode where
  | setData (label : String) (completeTask : Option String) (state : NodeState)
      (payload : Data)
  | waypoint (label : String) (completeTask : Option String) (state : NodeState)
      (pose : Pose)
  | sequence (label : String) (state : NodeState) (children : SForest)
  | conditional (label : String) (completeTask : Option String) (state : NodeState)
      (expression : String) (selected : Option Bool)
      (thenNodes : SForest) (elseNodes : SForest)
deriving DecidableEq, Repr

/-- An ordered list of sibling nodes (children of a composite). -/
inductive SForest where
  | nil
  | cons (head : SNode) (tail : SForest)
deriving DecidableEq, Repr
end

/-- The lifecycle state at the root of a node. -/
def SNode.state : SNode → NodeState
  | .setData _ _ st _ => st
  | .waypoint _ _ st _ => st
  | .sequence _ st _ => st
  | .conditional _ _ st _ _ _ _ => st

/-- External capabilities consumed by the engine during execution: the
expression evaluator (`evaluate(expression, data) -> bool|error`) and the
robot navigation outcome for a waypoint leaf. -/
structure ExecEnv where
  evalExpr : String → Data → Except String Bool
  navigate : Pose → Bool

/-- Result of running one node (or one sibling list) to completion. -/
structure RunResult (α : Type) where
  state : NodeState
  effects : List Effect
  data : Data
  out : α
deriving DecidableEq, Repr

/-- Effects emitted on successful completion of a node: marking the external
task complete when `completeTask` is set. -/
def completionEffects (completeTask : Option String) : List Effect :=
  match completeTask with
  | none => []
  | some t => [.taskComplete t]

/-- Assemble the result of a conditional node after its selected branch ran:
on branch success the node succeeds and reports its task completion; otherwise
the branch outcome propagates. The updated branch and the selection are stored
back into the node. -/
def condResult (l : String) (ct : Option String) (e : String) (b : Bool)
    (tns ens : SForest) (r : RunResult SForest) : RunResult SNode :=
  let tns' := if b then r.out else tns
  let ens' := if b then ens else r.out
  if r.state = .succeeded then
    ⟨.succeeded, r.effects ++ completionEffects ct, r.data,
      .conditional l ct .succeeded e (some b) tns' ens'⟩
  else
    ⟨r.state, r.effects, r.data, .conditional l ct r.state e (some b) tns' ens'⟩

mutual
/-- Run a node to completion (resuming semantics): a node whose state is
already terminal is skipped without effects; otherwise the node executes.
A sequence runs its children in order, stopping at the first non-succeeded
child; a conditional evaluates its expression lazily (or reuses the recorded
selection when resuming) and runs exactly one branch; leaves perform their
behavior and report task completion on success. -/
def rexec (env : ExecEnv) : SNode → Data → RunResult SNode
  | .setData l ct st kv, d =>
    if st.isTerminal then ⟨st, [], d, .setData l ct st kv⟩
    else
      ⟨.succeeded, .leafRun l :: completionEffects ct, mergeData d kv,
        .setData l ct .succeeded kv⟩
  | .waypoint l ct st p, d =>
    if st.isTerminal then ⟨st, [], d, .waypoint l ct st p⟩
    else if env.navigate p then
      ⟨.succeeded, .leafRun l :: completionEffects ct, d, .waypoint l ct .succeeded p⟩
    else
      ⟨.failed, [.leafRun l], d, .waypoint l ct .failed p⟩
  | .sequence l st cs, d =>
    if st.isTerminal then ⟨st, [], d, .sequence l st cs⟩
    else
      let r := rexecList env cs d
      ⟨r.state, r.effects, r.data, .sequence l r.state r.out⟩
  | .conditional l ct st e sel tns ens, d =>
    if st.isTerminal then ⟨st, [], d, .conditional l ct st e sel tns ens⟩
    else
      match sel with
      | some true => condResult l ct e true tns ens (rexecList env tns d)
      | some false => condResult l ct e false tns ens (rexecList env ens d)
      | none =>
        match env.evalExpr e d with
        | .error _ => ⟨.failed, [], d, .conditional l ct .failed e none tns ens⟩
        | .ok true => condResult l ct e true tns ens (rexecList env tns d)
        | .ok false => condResult l ct e false tns ens (rexecList env ens d)

/-- Run an ordered sibling list: execute each child in order, stopping at the
first child that does not end `SUCCEEDED` (its state propagates); succeed only
when every child succeeds. -/
def rexecList (env : ExecEnv) : SForest → Data → RunResult SForest
  | .nil, d => ⟨.succeeded, [], d, .nil⟩
  | .cons c cs, d =>
    let r := rexec env c d
    if r.state = .succeeded then
      let r2 := rexecList env cs r.data
      ⟨r2.state, r.effects ++ r2.effects, r2.data, .cons r.out r2.out⟩
    else
      ⟨r.state, r.effects, r.data, .cons r.out cs⟩
end

/-! ## Step model and tree compilation

Modelled from the spec: the `datatypes` module (`MissionDefinition`,
`MissionStepSetData`, `MissionStepPoseWaypoint`, `MissionStepIf`) and the
`behavior_tree` module's `NodeFromStepBuilder`/`DefaultTreeBuilder` are not
included under `src/`; their shapes follow the spec's Step Model, Node Builder
and Tree Builder contracts and the fields used by `src/example.py`. -/

mutual
/-- A mission step: a tagged variant with a label, an optional external
task-completion id, and a kind-specific payload. The `unknown` variant stands
for a step whose kind tag is not recognized by the node builder. -/
inductive Step where
  | setData (label : String) (completeTask : Option String) (data : Data)
  | poseWaypoint (label : String) (completeTask : Option String) (waypoint : Pose)
  | ifStep (label : String) (completeTask : Option String) (expression : String)
      (thenSteps : Steps) (elseSteps : Steps)
  | unknown (kind : String) (label : String)
deriving DecidableEq, Repr

/-- An ordered list of mission steps. -/
inductive Steps where
  | nil
  | cons (head : Step) (tail : Steps)
deriving DecidableEq, Repr
end

/-- Append two step lists. -/
def appendSteps : Steps → Steps → Steps
  | .nil, bs => bs
  | .cons a as, bs => .cons a (appendSteps as bs)

/-- Build-time (compilation) errors: an unrecognized step kind. -/
inductive CompilationError where
  | unsupportedStepKind (kind : String)
deriving DecidableEq, Repr

mutual
/-- Node Builder: translate one step into exactly one node, dispatching on the
step kind; an unrecognized kind fails fast with `UnsupportedStepKind`. For an
`If` step, both branch step lists are compiled recursively at build time; the
expression string is stored raw, to be evaluated lazily at execution time. -/
def buildNode : Step → Except CompilationError SNode
  | .setData l ct d => .ok (.setData l ct .pending d)
  | .poseWaypoint l ct p => .ok (.waypoint l ct .pending p)
  | .ifStep l ct e ts es =>
    match buildForest ts, buildForest es with
    | .ok tns, .ok ens => .ok (.conditional l ct .pending e none tns ens)
    | .error err, _ => .error err
    | _, .error err => .error err
  | .unknown k _ => .error (.unsupportedStepKind k)

/-- Compile an ordered step list into the ordered child list of a composite. -/
def buildForest : Steps → Except CompilationError SForest
  | .nil => .ok .nil
  | .cons s rest =>
    match buildNode s, buildForest rest with
    | .ok n, .ok ns => .ok (.cons n ns)
    | .error err, _ => .error err
    | _, .error err => .error err
end

/-- A mission definition: a label and an ordered sequence of steps. -/
structure MissionDefinition where
  label : String
  steps : Steps
deriving DecidableEq, Repr

/-- Tree Builder: compile a mission definition into its root sequence node
whose children are, in order, the nodes for each step. -/
def buildTree (d : MissionDefinition) : Except CompilationError SNode :=
  match buildForest d.steps with
  | .ok cs => .ok (.sequence d.label .pending cs)
  | .error err => .error err

mutual
/-- Well-formedness of one step: its kind (recursively, in branch bodies) is
recognized by the node builder. -/
def stepWellFormed : Step → Bool
  | .setData _ _ _ => true
  | .poseWaypoint _ _ _ => true
  | .ifStep _ _ _ ts es => stepsWellFormed ts && stepsWellFormed es
  | .unknown _ _ => false

/-- Well-formedness of a step list (see `stepWellFormed`). -/
def stepsWellFormed : Steps → Bool
  | .nil => true
  | .cons s rest => stepWellFormed s && stepsWellFormed rest
end

/-! ## Checkpoint serialization

Modelled from the spec: nodes support structural serialization to a plain
record and reconstruction from that record plus a rebuild context, keyed by a
kind tag (the node-type registry maps the tag to a reconstruction function).
A checkpoint snapshot stores each node's lifecycle state and, for a
conditional, the recorded branch selection (the node cursor). -/

mutual
/-- A plain serialized record for one node: a kind tag plus the union of the
fields any node kind needs (absent fields hold their empty defaults). -/
inductive DumpRec where
  | mk (kind : String) (label : String) (completeTask : Option String)
      (state : NodeState) (payload : Data) (pose : Option Pose)
      (expression : String) (selected : Option Bool)
      (children : DumpList) (elseChildren : DumpList)
deriving DecidableEq, Repr

/-- Serialized records of an ordered child list. -/
inductive DumpList where
  | nil
  | cons (head : DumpRec) (tail : DumpList)
deriving DecidableEq, Repr
end

mutual
/-- Serialize a node to its plain record (`dump_object`). -/
def dumpNode : SNode → DumpRec
  | .setData l ct st kv => .mk "setData" l ct st kv none "" none .nil .nil
  | .waypoint l ct st p => .mk "waypoint" l ct st [] (some p) "" none .nil .nil
  | .sequence l st cs => .mk "sequence" l none st [] none "" none (dumpList cs) .nil
  | .conditional l ct st e sel tns ens =>
    .mk "conditional" l ct st [] none e sel (dumpList tns) (dumpList ens)

/-- Serialize an ordered child list. -/
def dumpList : SForest → DumpList
  | .nil => .nil
  | .cons c cs => .cons (dumpNode c) (dumpList cs)
end

mutual
/-- Reconstruct a node from its plain record, dispatching on the kind tag as
the node-type registry does; a record whose tag is not registered, or whose
required fields are missing, fails. -/
def loadNode : DumpRec → Except String SNode
  | .mk k l ct st kv p e sel cs es =>
    if k = "setData" then .ok (.setData l ct st kv)
    else if k = "waypoint" then
      match p with
      | some pose => .ok (.waypoint l ct st pose)
      | none => .error "malformed waypoint record"
    else if k = "sequence" then
      match loadList cs with
      | .ok children => .ok (.sequence l st children)
      | .error err => .error err
    else if k = "conditional" then
      match loadList cs, loadList es with
      | .ok tns, .ok ens => .ok (.conditional l ct st e sel tns ens)
      | .error err, _ => .error err
      | _, .error err => .error err
    else .error ("unknown node type " ++ k)

/-- Reconstruct an ordered child list from its records. -/
def loadList : DumpList → Except String SForest
  | .nil => .ok .nil
  | .cons r rest =>
    match loadNode r, loadList rest with
    | .ok n, .ok ns => .ok (.cons n ns)
    | .error err, _ => .error err
    | _, .error err => .error err
end

/-! ## Fuel-bounded partial execution

A run interrupted after a bounded number of leaf executions, leaving behind
the in-progress tree exactly as a checkpoint would capture it: terminal nodes
keep their terminal states, the interrupted composite is `RUNNING`, a
conditional that already evaluated its expression has its selection recorded,
and untouched nodes stay `PENDING`. -/

/-- Result of a fuel-bounded partial run. -/
structure StepResult (α : Type) where
  fuel : Nat
  state : NodeState
  effects : List Effect
  data : Data
  out : α
deriving DecidableEq, Repr

/-- Assemble the partial-run result of a conditional node after its selected
branch ran (compare `condResult`): the selection is recorded in the node even
when the branch run was interrupted, so a resumed run does not re-evaluate the
expression. -/
def pcondResult (l : String) (ct : Option String) (e : String) (b : Bool)
    (tns ens : SForest) (r : StepResult SForest) : StepResult SNode :=
  let tns' := if b then r.out else tns
  let ens' := if b then ens else r.out
  if r.state = .succeeded then
    ⟨r.fuel, .succeeded, r.effects ++ completionEffects ct, r.data,
      .conditional l ct .succeeded e (some b) tns' ens'⟩
  else
    ⟨r.fuel, r.state, r.effects, r.data, .conditional l ct r.state e (some b) tns' ens'⟩

mutual
/-- Run a node, spending one unit of fuel per leaf execution; when fuel runs
out the result state is `RUNNING` and the partially executed tree is returned
(the shape a checkpoint captures mid-run). -/
def pexec (env : ExecEnv) (fuel : Nat) : SNode → Data → StepResult SNode
  | .setData l ct st kv, d =>
    if st.isTerminal then ⟨fuel, st, [], d, .setData l ct st kv⟩
    else
      match fuel with
      | 0 => ⟨0, .running, [], d, .setData l ct st kv⟩
      | f + 1 =>
        ⟨f, .succeeded, .leafRun l :: completionEffects ct, mergeData d kv,
          .setData l ct .succeeded kv⟩
  | .waypoint l ct st p, d =>
    if st.isTerminal then ⟨fuel, st, [], d, .waypoint l ct st p⟩
    else
      match fuel with
      | 0 => ⟨0, .running, [], d, .waypoint l ct st p⟩
      | f + 1 =>
        if env.navigate p then
          ⟨f, .succeeded, .leafRun l :: completionEffects ct, d,
            .waypoint l ct .succeeded p⟩
        else
          ⟨f, .failed, [.leafRun l], d, .waypoint l ct .failed p⟩
  | .sequence l st cs, d =>
    if st.isTerminal then ⟨fuel, st, [], d, .sequence l st cs⟩
    else
      let r := pexecList env fuel cs d
      ⟨r.fuel, r.state, r.effects, r.data, .sequence l r.state r.out⟩
  | .conditional l ct st e sel tns ens, d =>
    if st.isTerminal then ⟨fuel, st, [], d, .conditional l ct st e sel tns ens⟩
    else
      match sel with
      | some true => pcondResult l ct e true tns ens (pexecList env fuel tns d)
      | some false => pcondResult l ct e false tns ens (pexecList env fuel ens d)
      | none =>
        match env.evalExpr e d with
        | .error _ => ⟨fuel, .failed, [], d, .conditional l ct .failed e none tns ens⟩
        | .ok true => pcondResult l ct e true tns ens (pexecList env fuel tns d)
        | .ok false => pcondResult l ct e false tns ens (pexecList env fuel ens d)

/-- Run an ordered sibling list under a fuel bound (see `pexec`). -/
def pexecList (env : ExecEnv) (fuel : Nat) : SForest → Data → StepResult SForest
  | .nil, d => ⟨fuel, .succeeded, [], d, .nil⟩
  | .cons c cs, d =>
    let r := pexec env fuel c d
    if r.state = .succeeded then
      let r2 := pexecList env r.fuel cs r.data
      ⟨r2.fuel, r2.state, r.effects ++ r2.effects, r2.data, .cons r.out r2.out⟩
    else
      ⟨r.fuel, r.state, r.effects, r.data, .cons r.out cs⟩
end

/-! ## Worker pool

Modelled from the spec: the `worker_pool` module is not included under
`src/`; `WorkerPool.start`, `submit_work` and `shutdown` follow the spec's
Worker Pool contract (§4.4): submission validates that no live Worker already
owns the mission id, compiles the tree, persists the initial checkpoint and
schedules a Worker; shutdown cancels live Workers, flushes final checkpoints
and releases them, and is idempotent and safe without a prior `start()`. -/

/-- A mission: one run of a compiled tree bound to a robot and arguments. -/
structure Mission where
  id : String
  robot_id : String
  definition : MissionDefinition
  arguments : Data
deriving DecidableEq, Repr

/-- Recognized runtime options of `submit_work`. -/
structure MissionRuntimeOptions where
  executionTimeout : Option Nat := none
  checkpointInterval : Option Nat := none
  maxConcurrentMissions : Option Nat := none
deriving DecidableEq, Repr

/-- A live worker: pairs one mission with its in-progress tree; destroyed when
the mission reaches a terminal state and is finalized, or on pool shutdown. -/
structure Worker where
  missionId : String
  tree : SNode
deriving DecidableEq, Repr

/-- Persist a checkpoint record under a mission id, replacing any previous
checkpoint for the same mission. -/
def saveCheckpoint (db : List (String × DumpRec)) (id : String) (rec : DumpRec) :
    List (String × DumpRec) :=
  match db with
  | [] => [(id, rec)]
  | (k, v) :: rest =>
    if k = id then (k, rec) :: rest else (k, v) :: saveCheckpoint rest id rec

/-- The worker pool: whether it was started, its live workers (at most one per
mission id), and the persistence gateway's checkpoint store. -/
structure WorkerPool where
  started : Bool
  workers : List Worker
  db : List (String × DumpRec)
deriving DecidableEq, Repr

/-- Errors surfaced by pool operations. -/
inductive PoolError where
  | alreadyRunning
  | compilation (err : CompilationError)
deriving DecidableEq, Repr

/-- Whether a live worker currently owns the given mission id. -/
def WorkerPool.hasLiveWorker (p : WorkerPool) (id : String) : Bool :=
  p.workers.any fun w => w.missionId == id

/-- `submit_work`: reject a mission already owned by a live worker with
`AlreadyRunning`; otherwise compile its tree (a compilation failure means the
mission never starts), persist the initial checkpoint and schedule a worker. -/
def submitWork (p : WorkerPool) (m : Mission) (_opts : MissionRuntimeOptions) :
    Except PoolError WorkerPool :=
  if p.hasLiveWorker m.id then .error .alreadyRunning
  else
    match buildTree m.definition with
    | .error err => .error (.compilation err)
    | .ok tree =>
      .ok { p with
              workers := ⟨m.id, tree⟩ :: p.workers,
              db := saveCheckpoint p.db m.id (dumpNode tree) }

/-- Finalize a mission that reached a terminal state: its worker is destroyed
and no longer owns the mission id. -/
def finalizeWorker (p : WorkerPool) (id : String) : WorkerPool :=
  { p with workers := p.workers.filter fun w => w.missionId != id }

/-- `shutdown()`: flush a final checkpoint for every live worker, then release
all workers and mark the pool stopped. Total (never errors), also without a
prior `start()`. -/
def shutdown (p : WorkerPool) : WorkerPool :=
  { started := false,
    workers := [],
    db := p.workers.foldl (fun db w => saveCheckpoint db w.missionId (dumpNode w.tree)) p.db }

/-- A pool as constructed, before `start()`. -/
def WorkerPool.init (db : List (String × DumpRec)) : WorkerPool :=
  { started := false, workers := [], db := db }

/-! ## The example program (`src/example.py`)

`MyWaypointNode` with its `dump_object`/`from_object` pair, and the concrete
demo mission built in `main()`. The base class `BehaviorTree.dump_object` is
not included under `src/`; it is modelled from the spec as the structural
serialization of the node's own fields (label and lifecycle state). -/

/-- The robot-scoped API handle (`context.robot_api`), carrying the robot id. -/
structure RobotAPI where
  robot_id : String
deriving DecidableEq, Repr

/-- The build context handed to nodes during construction. -/
structure BehaviorTreeBuilderContext where
  robot_api : RobotAPI
deriving DecidableEq, Repr

/-- Pydantic's `Pose.copy()`: a new `Pose` value built from the same fields. -/
def Pose.copy (p : Pose) : Pose :=
  { x := p.x, y := p.y, theta := p.theta, frameId := p.frameId, waypointId := p.waypointId }

/-- The demo's custom waypoint node: the base behavior-tree fields (label,
lifecycle state) plus the waypoint and the robot id taken from the context. -/
structure MyWaypointNode where
  label : Option String
  state : NodeState
  waypoint : Pose
  robot_id : String
deriving DecidableEq, Repr

/-- The plain record produced by `dump_object`: the base node record (label
and state — modelled from the spec for the base class) plus the `waypoint`
entry the subclass adds. -/
structure NodeObject where
  label : Option String
  state : NodeState
  waypoint : Option Pose
deriving DecidableEq, Repr

/-- `MyWaypointNode.dump_object`: the base record extended with a copy of the
node's waypoint. -/
def MyWaypointNode.dump_object (n : MyWaypointNode) : NodeObject :=
  { label := n.label, state := n.state, waypoint := some n.waypoint.copy }

/-- `MyWaypointNode.from_object`: rebuild a node from a context and the
serialized waypoint (plus the base record's remaining fields). -/
def MyWaypointNode.from_object (context : BehaviorTreeBuilderContext) (waypoint : Pose)
    (label : Option String) (state : NodeState) : MyWaypointNode :=
  { label := label, state := state, waypoint := waypoint,
    robot_id := context.robot_api.robot_id }

/-- The demo mission definition built in `main()` of `src/example.py`. -/
def exampleDefinition : MissionDefinition :=
  { label := "A mission definition",
    steps :=
      .cons (.setData "set some data" (some "step 0") [("key", "value")])
        (.cons (.setData "set more data" (some "step 1") [("key2", "value2")])
          (.cons (.poseWaypoint "go to waypoint" (some "step 2")
              ⟨0, 0, 0, "map", "wp1"⟩)
            (.cons (.ifStep "if" none "0 > 1"
                (.cons (.poseWaypoint "go to waypoint A" (some "step 3")
                    ⟨0, 0, 0, "map", "wpA"⟩) .nil)
                (.cons (.poseWaypoint "go to waypoint B" (some "step 4")
                    ⟨0, 0, 0, "map", "wpB"⟩) .nil))
              .nil))) }

/-- The compiled behavior tree of the demo mission. -/
def exampleTree : SNode :=
  .sequence "A mission definition" .pending
    (.cons (.setData "set some data" (some "step 0") .pending [("key", "value")])
      (.cons (.setData "set more data" (some "step 1") .pending [("key2", "value2")])
        (.cons (.waypoint "go to waypoint" (some "step 2") .pending
            ⟨0, 0, 0, "map", "wp1"⟩)
          (.cons (.conditional "if" none .pending "0 > 1" none
              (.cons (.waypoint "go to waypoint A" (some "step 3") .pending
                  ⟨0, 0, 0, "map", "wpA"⟩) .nil)
              (.cons (.waypoint "go to waypoint B" (some "step 4") .pending
                  ⟨0, 0, 0, "map", "wpB"⟩) .nil))
            .nil))))

/-! ## Derived notions used by the statements -/

/-- The overall outcome of resuming an interrupted node run from its
checkpointed tree and data: the resumed run's outcome, with the effects
already emitted before the interruption in front. -/
def resumed (env : ExecEnv) (r : StepResult SNode) : RunResult SNode :=
  let r2 := rexec env r.out r.data
  ⟨r2.state, r.effects ++ r2.effects, r2.data, r2.out⟩

/-- The overall outcome of resuming an interrupted sibling-list run (see
`resumed`). -/
def resumedList (env : ExecEnv) (r : StepResult SForest) : RunResult SForest :=
  let r2 := rexecList env r.out r.data
  ⟨r2.state, r.effects ++ r2.effects, r2.data, r2.out⟩

/-- Append two sibling lists. -/
def appendForest : SForest → SForest → SForest
  | .nil, bs => bs
  | .cons a as, bs => .cons a (appendForest as bs)

/-- Whether every node of a sibling list ended `SUCCEEDED`. -/
def allSucceeded : SForest → Bool
  | .nil => true
  | .cons c cs => (c.state = .succeeded) && allSucceeded cs

/-- The task ids reported complete within an effect trace, in order. -/
def taskCompletions (effects : List Effect) : List String :=
  effects.filterMap fun eff =>
    match eff with
    | .taskComplete t => some t
    | .leafRun _ => none

/-- The node state machine of the spec:
`PENDING → RUNNING → {SUCCEEDED, FAILED, CANCELLED}`. -/
inductive NodeTransition : NodeState → NodeState → Prop where
  | start : NodeTransition .pending .running
  | succeed : NodeTransition .running .succeeded
  | fail : NodeTransition .running .failed
  | cancel : NodeTransition .running .cancelled

/-- A concrete environment matching the demo run of `src/example.py`: the
InOrbit API evaluates the demo's comparison expression (`0 > 1` is false) and
the robot reaches every waypoint. -/
def exampleEnv : ExecEnv :=
  { evalExpr := fun e _ => if e = "0 > 1" then .ok false else .error "cannot evaluate",
    navigate := fun _ => true }

/-- An environment whose expression evaluator always fails (for instance, the
expression references an undefined variable). -/
def errorEnv : ExecEnv :=
  { evalExpr := fun _ _ => .error "undefined variable",
    navigate := fun _ => true }

/-- The demo mission object built in `main()` of `src/example.py`. -/
def exampleMission : Mission :=
  { id := "mission-1",
    robot_id := "robot-1",
    definition := exampleDefinition,
    arguments := [("arg1", "value1")] }

/-- A concrete environment for witness runs: expressions evaluate to true and
the robot reaches exactly the waypoints whose id is `"ok"`. -/
def witnessEnv : ExecEnv :=
  { evalExpr := fun _ _ => .ok true,
    navigate := fun p => p.waypointId == "ok" }

/-- The demo tree after the demo run: every executed node `SUCCEEDED`, the
conditional recorded the `else` selection, and the never-instantiated `then`
branch is still `PENDING`. -/
def exampleTreeFinal : SNode :=
  .sequence "A mission definition" .succeeded
    (.cons (.setData "set some data" (some "step 0") .succeeded [("key", "value")])
      (.cons (.setData "set more data" (some "step 1") .succeeded [("key2", "value2")])
        (.cons (.waypoint "go to waypoint" (some "step 2") .succeeded
            ⟨0, 0, 0, "map", "wp1"⟩)
          (.cons (.conditional "if" none .succeeded "0 > 1" (some false)
              (.cons (.waypoint "go to waypoint A" (some "step 3") .pending
                  ⟨0, 0, 0, "map", "wpA"⟩) .nil)
              (.cons (.waypoint "go to waypoint B" (some "step 4") .succeeded
                  ⟨0, 0, 0, "map", "wpB"⟩) .nil))
            .nil))))

/-- The effect trace of the demo run, in execution order. -/
def exampleEffects : List Effect :=
  [.leafRun "set some data", .taskComplete "step 0",
   .leafRun "set more data", .taskComplete "step 1",
   .leafRun "go to waypoint", .taskComplete "step 2",
   .leafRun "go to waypoint B", .taskComplete "step 4"]

/-- A small mission with an empty step list, for concrete pool scenarios. -/
def demoMission : Mission :=
  { id := "m1", robot_id := "r1",
    definition := { label := "d", steps := .nil },
    arguments := [] }

/-- A pool in which a live worker already owns mission id `"m1"`. -/
def demoPool : WorkerPool :=
  { started := true,
    workers := [⟨"m1", .setData "s" none .pending []⟩],
    db := [] }

/-! ## Execution lemmas -/

@[simp] theorem isTerminal_pending : NodeState.pending.isTerminal = false := rfl

@[simp] theorem isTerminal_running : NodeState.running.isTerminal = false := rfl

@[simp] theorem isTerminal_succeeded : NodeState.succeeded.isTerminal = true := rfl

@[simp] theorem isTerminal_failed : NodeState.failed.isTerminal = true := rfl

@[simp] theorem isTerminal_cancelled : NodeState.cancelled.isTerminal = true := rfl

@[simp] theorem state_setData (l : String) (ct : Option String) (st : NodeState)
    (kv : Data) : (SNode.setData l ct st kv).state = st := rfl

@[simp] theorem state_waypoint (l : String) (ct : Option String) (st : NodeState)
    (p : Pose) : (SNode.waypoint l ct st p).state = st := rfl

@[simp] theorem state_sequence (l : String) (st : NodeState) (cs : SForest) :
    (SNode.sequence l st cs).state = st := rfl

@[simp] theorem state_conditional (l : String) (ct : Option String) (st : NodeState)
    (e : String) (sel : Option Bool) (tns ens : SForest) :
    (SNode.conditional l ct st e sel tns ens).state = st := rfl

/-- A node whose state is already terminal is skipped: no effects, no data
change, no tree change. -/
theorem rexec_skip (env : ExecEnv) (t : SNode) (d : Data)
    (h : t.state.isTerminal = true) : rexec env t d = ⟨t.state, [], d, t⟩ := by
  cases t <;> simp [SNode.state] at h ⊢ <;> simp [rexec, h]

/-- The root state recorded by `condResult` is the result state. -/
theorem condResult_out_state (l : String) (ct : Option String) (e : String) (b : Bool)
    (tns ens : SForest) (r : RunResult SForest) :
    (condResult l ct e b tns ens r).out.state = (condResult l ct e b tns ens r).state := by
  by_cases hr : r.state = .succeeded <;> simp [condResult, hr, SNode.state]

/-- The root state recorded in the result tree is the result state. -/
theorem rexec_out_state (env : ExecEnv) (t : SNode) (d : Data) :
    (rexec env t d).out.state = (rexec env t d).state := by
  cases t with
  | setData l ct st kv =>
    by_cases h : st.isTerminal = true <;> simp [rexec, h, SNode.state]
  | waypoint l ct st p =>
    by_cases h : st.isTerminal = true
    · simp [rexec, h, SNode.state]
    · by_cases hn : env.navigate p = true <;> simp [rexec, h, hn, SNode.state]
  | sequence l st cs =>
    by_cases h : st.isTerminal = true <;> simp [rexec, h, SNode.state]
  | conditional l ct st e sel tns ens =>
    by_cases h : st.isTerminal = true
    · simp [rexec, h, SNode.state]
    · cases sel with
      | some b => cases b <;> simp [rexec, h, condResult_out_state]
      | none =>
        cases he : env.evalExpr e d with
        | error msg => simp [rexec, h, he, SNode.state]
        | ok b => cases b <;> simp [rexec, h, he, condResult_out_state]

/-- A `condResult` built from a terminal branch outcome is terminal. -/
theorem condResult_terminal (l : String) (ct : Option String) (e : String) (b : Bool)
    (tns ens : SForest) (r : RunResult SForest) (h : r.state.isTerminal = true) :
    (condResult l ct e b tns ens r).state.isTerminal = true := by
  by_cases hr : r.state = .succeeded <;> simp [condResult, hr, NodeState.isTerminal]
  exact h

mutual
/-- Running a node to completion always ends in a terminal state. -/
theorem rexec_terminal (env : ExecEnv) (t : SNode) (d : Data) :
    (rexec env t d).state.isTerminal = true := by
  cases t with
  | setData l ct st kv =>
    by_cases h : st.isTerminal = true <;> simp [rexec, h]
  | waypoint l ct st p =>
    by_cases h : st.isTerminal = true
    · simp [rexec, h]
    · by_cases hn : env.navigate p = true <;> simp [rexec, h, hn]
  | sequence l st cs =>
    by_cases h : st.isTerminal = true
    · simp [rexec, h]
    · simpa [rexec, h] using rexecList_terminal env cs d
  | conditional l ct st e sel tns ens =>
    by_cases h : st.isTerminal = true
    · simp [rexec, h]
    · cases sel with
      | some b =>
        cases b <;> simp only [rexec, h, if_false, Bool.false_eq_true, ite_false] <;>
          exact condResult_terminal _ _ _ _ _ _ _ (rexecList_terminal env _ d)
      | none =>
        cases he : env.evalExpr e d with
        | error msg => simp [rexec, h, he]
        | ok b =>
          cases b <;> simp only [rexec, h, if_false, Bool.false_eq_true, ite_false, he] <;>
            exact condResult_terminal _ _ _ _ _ _ _ (rexecList_terminal env _ d)

/-- Running a sibling list to completion always ends in a terminal state. -/
theorem rexecList_terminal (env : ExecEnv) (cs : SForest) (d : Data) :
    (rexecList env cs d).state.isTerminal = true := by
  cases cs with
  | nil => simp [rexecList]
  | cons c cs' =>
    by_cases h : (rexec env c d).state = .succeeded <;> simp [rexecList, h]
    · exact rexecList_terminal env cs' _
    · exact rexec_terminal env c d
end

/-- The root state recorded by `pcondResult` is the result state. -/
theorem pcondResult_out_state (l : String) (ct : Option String) (e : String) (b : Bool)
    (tns ens : SForest) (r : StepResult SForest) :
    (pcondResult l ct e b tns ens r).out.state = (pcondResult l ct e b tns ens r).state := by
  by_cases hr : r.state = .succeeded <;> simp [pcondResult, hr, SNode.state]

/-- When a fuel-bounded run completes (reaches a terminal result state), the
root state recorded in the checkpointed tree is that terminal state. -/
theorem pexec_out_state (env : ExecEnv) (f : Nat) (t : SNode) (d : Data)
    (h : (pexec env f t d).state.isTerminal = true) :
    (pexec env f t d).out.state = (pexec env f t d).state := by
  cases t with
  | setData l ct st kv =>
    by_cases hs : st.isTerminal = true
    · simp [pexec, hs, SNode.state]
    · cases f with
      | zero => simp [pexec, hs] at h
      | succ f' => simp [pexec, hs, SNode.state]
  | waypoint l ct st p =>
    by_cases hs : st.isTerminal = true
    · simp [pexec, hs, SNode.state]
    · cases f with
      | zero => simp [pexec, hs] at h
      | succ f' =>
        by_cases hn : env.navigate p = true <;> simp [pexec, hs, hn, SNode.state]
  | sequence l st cs =>
    by_cases hs : st.isTerminal = true <;> simp [pexec, hs, SNode.state]
  | conditional l ct st e sel tns ens =>
    by_cases hs : st.isTerminal = true
    · simp [pexec, hs, SNode.state]
    · cases sel with
      | some b => cases b <;> simp [pexec, hs, pcondResult_out_state]
      | none =>
        cases he : env.evalExpr e d with
        | error msg => simp [pexec, hs, he, SNode.state]
        | ok b => cases b <;> simp [pexec, hs, he, pcondResult_out_state]

/-- After a fuel-bounded run of a sibling list completes with a terminal
state, resuming that list re-executes nothing: it skips to the same outcome
with no effects, for any ambient data. -/
theorem pexecList_skipAfter (env : ExecEnv) (f : Nat) (cs : SForest) (d : Data)
    (h : (pexecList env f cs d).state.isTerminal = true) (d' : Data) :
    rexecList env (pexecList env f cs d).out d' =
      ⟨(pexecList env f cs d).state, [], d', (pexecList env f cs d).out⟩ := by
  cases cs with
  | nil => simp [pexecList, rexecList]
  | cons c cs' =>
    by_cases hr : (pexec env f c d).state = .succeeded
    · have hterm : (pexec env f c d).state.isTerminal = true := by
        rw [hr]; decide
      have hout : (pexec env f c d).out.state = (pexec env f c d).state :=
        pexec_out_state env f c d hterm
      have hskip : rexec env (pexec env f c d).out d' =
          ⟨(pexec env f c d).out.state, [], d', (pexec env f c d).out⟩ :=
        rexec_skip env _ d' (by rw [hout]; exact hterm)
      have h2 : (pexecList env (pexec env f c d).fuel cs' (pexec env f c d).data).state.isTerminal
          = true := by
        simpa [pexecList, hr] using h
      have ih := pexecList_skipAfter env (pexec env f c d).fuel cs' (pexec env f c d).data h2 d'
      simp [pexecList, hr, rexecList, hskip, hout, ih]
    · have hterm : (pexec env f c d).state.isTerminal = true := by
        simpa [pexecList, hr] using h
      have hout : (pexec env f c d).out.state = (pexec env f c d).state :=
        pexec_out_state env f c d hterm
      have hskip : rexec env (pexec env f c d).out d' =
          ⟨(pexec env f c d).out.state, [], d', (pexec env f c d).out⟩ :=
        rexec_skip env _ d' (by rw [hout]; exact hterm)
      simp [pexecList, hr, rexecList, hskip, hout]

/-- Branch bookkeeping for resuming a conditional node whose branch selection
is already recorded: given the resume equivalence for the selected branch
list, the conditional node satisfies the resume equivalence. -/
theorem cond_resume_branch (env : ExecEnv) (fuel : Nat) (l : String)
    (ct : Option String) (st : NodeState) (hs : ¬ st.isTerminal = true)
    (e : String) (b : Bool) (tns ens : SForest) (d : Data)
    (ih : rexecList env (if b then tns else ens) d =
      resumedList env (pexecList env fuel (if b then tns else ens) d)) :
    rexec env (.conditional l ct st e (some b) tns ens) d =
      resumed env (pexec env fuel (.conditional l ct st e (some b) tns ens) d) := by
  cases b with
  | true =>
    simp only [if_true] at ih
    by_cases hterm : (pexecList env fuel tns d).state.isTerminal = true
    · have hskip := pexecList_skipAfter env fuel tns d hterm
        (pexecList env fuel tns d).data
      by_cases hsucc : (pexecList env fuel tns d).state = .succeeded <;>
        simp [rexec, pexec, resumed, resumedList, condResult, pcondResult,
          hs, hsucc, hskip, ih, hterm]
    · have hsucc : ¬ (pexecList env fuel tns d).state = .succeeded := by
        intro h
        rw [h] at hterm
        exact hterm rfl
      simp [rexec, pexec, resumed, resumedList, condResult, pcondResult,
        hs, hsucc, ih, hterm]
      by_cases hq : (rexecList env (pexecList env fuel tns d).out
          (pexecList env fuel tns d).data).state = .succeeded <;> simp [hq]
  | false =>
    simp only [Bool.false_eq_true, if_false] at ih
    by_cases hterm : (pexecList env fuel ens d).state.isTerminal = true
    · have hskip := pexecList_skipAfter env fuel ens d hterm
        (pexecList env fuel ens d).data
      by_cases hsucc : (pexecList env fuel ens d).state = .succeeded <;>
        simp [rexec, pexec, resumed, resumedList, condResult, pcondResult,
          hs, hsucc, hskip, ih, hterm]
    · have hsucc : ¬ (pexecList env fuel ens d).state = .succeeded := by
        intro h
        rw [h] at hterm
        exact hterm rfl
      simp [rexec, pexec, resumed, resumedList, condResult, pcondResult,
        hs, hsucc, ih, hterm]
      by_cases hq : (rexecList env (pexecList env fuel ens d).out
          (pexecList env fuel ens d).data).state = .succeeded <;> simp [hq]

mutual
/-- Resuming after an interruption is equivalent to never having been
interrupted: an uninterrupted run of a node equals the fuel-bounded partial
run followed by a resumed run of the checkpointed tree, with the effect
traces concatenated. -/
theorem rexec_resume (env : ExecEnv) (fuel : Nat) (t : SNode) (d : Data) :
    rexec env t d = resumed env (pexec env fuel t d) := by
  cases t with
  | setData l ct st kv =>
    by_cases hs : st.isTerminal = true
    · simp [rexec, pexec, resumed, hs]
    · cases fuel with
      | zero => simp [pexec, resumed, hs]
      | succ f' => simp [rexec, pexec, resumed, hs]
  | waypoint l ct st p =>
    by_cases hs : st.isTerminal = true
    · simp [rexec, pexec, resumed, hs]
    · cases fuel with
      | zero => simp [pexec, resumed, hs]
      | succ f' =>
        by_cases hn : env.navigate p = true <;> simp [rexec, pexec, resumed, hs, hn]
  | sequence l st cs =>
    by_cases hs : st.isTerminal = true
    · simp [rexec, pexec, resumed, hs]
    · have ih := rexecList_resume env fuel cs d
      by_cases ht : (pexecList env fuel cs d).state.isTerminal = true
      · have hskip := pexecList_skipAfter env fuel cs d ht (pexecList env fuel cs d).data
        simp [rexec, pexec, resumed, resumedList, hs, ht, hskip] at ih ⊢
        simp [ih, hskip]
      · simp [rexec, pexec, resumed, resumedList, hs, ht] at ih ⊢
        simp [ih]
  | conditional l ct st e sel tns ens =>
    by_cases hs : st.isTerminal = true
    · simp [rexec, pexec, resumed, hs]
    · cases sel with
      | some b =>
        cases b
        · exact cond_resume_branch env fuel l ct st hs e false tns ens d
            (by simpa using rexecList_resume env fuel ens d)
        · exact cond_resume_branch env fuel l ct st hs e true tns ens d
            (by simpa using rexecList_resume env fuel tns d)
      | none =>
        cases he : env.evalExpr e d with
        | error msg => simp [rexec, pexec, resumed, hs, he]
        | ok b =>
          cases b
          · have h := cond_resume_branch env fuel l ct st hs e false tns ens d
              (by simpa using rexecList_resume env fuel ens d)
            simp [rexec, pexec, hs, he] at h ⊢
            exact h
          · have h := cond_resume_branch env fuel l ct st hs e true tns ens d
              (by simpa using rexecList_resume env fuel tns d)
            simp [rexec, pexec, hs, he] at h ⊢
            exact h

/-- Resuming an interrupted sibling-list run is equivalent to the
uninterrupted run (see `rexec_resume`). -/
theorem rexecList_resume (env : ExecEnv) (fuel : Nat) (cs : SForest) (d : Data) :
    rexecList env cs d = resumedList env (pexecList env fuel cs d) := by
  cases cs with
  | nil => simp [rexecList, pexecList, resumedList]
  | cons c cs' =>
    have ihc := rexec_resume env fuel c d
    by_cases hr : (pexec env fuel c d).state = .succeeded
    · have hterm : (pexec env fuel c d).state.isTerminal = true := by rw [hr]; decide
      have hout := pexec_out_state env fuel c d hterm
      have hskip : ∀ d', rexec env (pexec env fuel c d).out d' =
          ⟨(pexec env fuel c d).state, [], d', (pexec env fuel c d).out⟩ := by
        intro d'
        rw [rexec_skip env _ d' (by rw [hout]; exact hterm), hout]
      have ihl := rexecList_resume env (pexec env fuel c d).fuel cs'
        (pexec env fuel c d).data
      simp [rexecList, pexecList, resumedList, resumed, hr, hskip, ihc, ihl]
    · have ihl := rexecList_resume env (pexec env fuel c d).fuel cs'
        (pexec env fuel c d).data
      simp [rexecList, pexecList, resumedList, resumed, hr, ihc]
      by_cases hq : (rexec env (pexec env fuel c d).out (pexec env fuel c d).data).state
          = .succeeded <;> simp [hq]
end

/-! ## Serialization lemmas -/

mutual
/-- Serialization round trip: reconstructing a node from its dumped plain
record yields the node back. -/
theorem loadNode_dumpNode (t : SNode) : loadNode (dumpNode t) = .ok t := by
  cases t with
  | setData l ct st kv => simp [dumpNode, loadNode]
  | waypoint l ct st p => simp [dumpNode, loadNode]
  | sequence l st cs => simp [dumpNode, loadNode, loadList_dumpList cs]
  | conditional l ct st e sel tns ens =>
    simp [dumpNode, loadNode, loadList_dumpList tns, loadList_dumpList ens]

/-- Serialization round trip for an ordered child list. -/
theorem loadList_dumpList (cs : SForest) : loadList (dumpList cs) = .ok cs := by
  cases cs with
  | nil => simp [dumpList, loadList]
  | cons c cs' =>
    simp [dumpList, loadList, loadNode_dumpNode c, loadList_dumpList cs']
end

/-! ## Sequence-order lemmas -/

/-- Running an appended sibling list: the first block runs first; the second
block runs only when the first succeeded, on the first block's final data. -/
theorem rexecList_append (env : ExecEnv) (as bs : SForest) (d : Data) :
    rexecList env (appendForest as bs) d =
      if (rexecList env as d).state = .succeeded then
        ⟨(rexecList env bs (rexecList env as d).data).state,
         (rexecList env as d).effects ++
           (rexecList env bs (rexecList env as d).data).effects,
         (rexecList env bs (rexecList env as d).data).data,
         appendForest (rexecList env as d).out
           (rexecList env bs (rexecList env as d).data).out⟩
      else
        ⟨(rexecList env as d).state, (rexecList env as d).effects,
         (rexecList env as d).data, appendForest (rexecList env as d).out bs⟩ := by
  cases as with
  | nil => simp [appendForest, rexecList]
  | cons a as' =>
    by_cases hr : (rexec env a d).state = .succeeded
    · have ih := rexecList_append env as' bs (rexec env a d).data
      by_cases hq : (rexecList env as' (rexec env a d).data).state = .succeeded <;>
        simp [appendForest, rexecList, hr, hq, ih]
    · simp [appendForest, rexecList, hr]

/-- A sibling list run ends `SUCCEEDED` exactly when every child node of the
resulting forest ended `SUCCEEDED`. -/
theorem rexecList_succeeded_iff (env : ExecEnv) (cs : SForest) (d : Data) :
    (rexecList env cs d).state = .succeeded ↔
      allSucceeded (rexecList env cs d).out = true := by
  cases cs with
  | nil => simp [rexecList, allSucceeded]
  | cons c cs' =>
    have hout := rexec_out_state env c d
    by_cases hr : (rexec env c d).state = .succeeded
    · have ih := rexecList_succeeded_iff env cs' (rexec env c d).data
      simp [rexecList, allSucceeded, hr, hout, ih]
    · simp [rexecList, allSucceeded, hr, hout]

/-! ## Worker-pool and state-machine lemmas -/

/-- After finalizing a mission, no live worker owns its id. -/
theorem hasLiveWorker_finalize (p : WorkerPool) (id : String) :
    (finalizeWorker p id).hasLiveWorker id = false := by
  simp only [WorkerPool.hasLiveWorker, finalizeWorker]
  rw [List.any_eq_false]
  intro w hw
  have hmem := List.mem_filter.mp hw
  simpa using hmem.2

/-- The node state machine has no transition out of a terminal state. -/
theorem noTransition_of_terminal (s s' : NodeState) (h : s.isTerminal = true) :
    ¬ NodeTransition s s' := by
  intro htr
  cases htr <;> simp at h

/-- Terminal states of the node state machine are sticky: no chain of
transitions leaves them. -/
theorem terminal_sticky (s s' : NodeState) (h : s.isTerminal = true)
    (htr : Relation.ReflTransGen NodeTransition s s') : s' = s := by
  rcases Relation.ReflTransGen.cases_head htr with heq | ⟨b, hb, _⟩
  · exact heq.symm
  · exact absurd hb (noTransition_of_terminal s b h)

/-- Every terminal state is reachable from `RUNNING` in the state machine. -/
theorem running_reaches (s : NodeState) (h : s.isTerminal = true) :
    Relation.ReflTransGen NodeTransition .running s := by
  cases s with
  | pending => simp at h
  | running => simp at h
  | succeeded => exact .single .succeed
  | failed => exact .single .fail
  | cancelled => exact .single .cancel

mutual
/-- A step that is not well formed fails to compile with
`UnsupportedStepKind`. -/
theorem buildNode_error_of_not_wf (s : Step) (h : stepWellFormed s = false) :
    ∃ k, buildNode s = .error (.unsupportedStepKind k) := by
  cases s with
  | setData l ct kv => simp [stepWellFormed] at h
  | poseWaypoint l ct p => simp [stepWellFormed] at h
  | ifStep l ct e ts es =>
    rw [stepWellFormed, Bool.and_eq_false_iff] at h
    cases h with
    | inl h1 =>
      obtain ⟨k, hk⟩ := buildForest_error_of_not_wf ts h1
      exact ⟨k, by simp [buildNode, hk]⟩
    | inr h2 =>
      cases hts : buildForest ts with
      | error err =>
        cases err with
        | unsupportedStepKind k => exact ⟨k, by simp [buildNode, hts]⟩
      | ok tns =>
        obtain ⟨k, hk⟩ := buildForest_error_of_not_wf es h2
        exact ⟨k, by simp [buildNode, hts, hk]⟩
  | unknown k l => exact ⟨k, rfl⟩

/-- A step list containing a step that is not well formed fails to compile
with `UnsupportedStepKind`. -/
theorem buildForest_error_of_not_wf (ss : Steps) (h : stepsWellFormed ss = false) :
    ∃ k, buildForest ss = .error (.unsupportedStepKind k) := by
  cases ss with
  | nil => simp [stepsWellFormed] at h
  | cons s rest =>
    rw [stepsWellFormed, Bool.and_eq_false_iff] at h
    cases h with
    | inl h1 =>
      obtain ⟨k, hk⟩ := buildNode_error_of_not_wf s h1
      exact ⟨k, by simp [buildForest, hk]⟩
    | inr h2 =>
      cases hs : buildNode s with
      | error err =>
        cases err with
        | unsupportedStepKind k => exact ⟨k, by simp [buildForest, hs]⟩
      | ok n =>
        obtain ⟨k, hk⟩ := buildForest_error_of_not_wf rest h2
        exact ⟨k, by simp [buildForest, hs, hk]⟩
end

/-! ## Claim theorems -/

/-- C1: executing a sequence runs its children strictly in order; when a child
ends `FAILED` after a succeeding prefix, the run stops there — the subsequent
siblings contribute no effects and are left untouched — and `FAILED`
propagates to the sequence; and a sequence run ends `SUCCEEDED` exactly when
every child ended `SUCCEEDED`. -/
theorem claim_sequence_order_short_circuit :
    (∀ (env : ExecEnv) (l : String) (pre post : SForest) (c : SNode) (d : Data),
      (rexecList env pre d).state = .succeeded →
      (rexec env c (rexecList env pre d).data).state = .failed →
      rexec env (.sequence l .pending (appendForest pre (.cons c post))) d =
        ⟨.failed,
         (rexecList env pre d).effects ++
           (rexec env c (rexecList env pre d).data).effects,
         (rexec env c (rexecList env pre d).data).data,
         .sequence l .failed
           (appendForest (rexecList env pre d).out
             (.cons (rexec env c (rexecList env pre d).data).out post))⟩) ∧
    (∀ (env : ExecEnv) (l : String) (cs : SForest) (d : Data),
      (rexec env (.sequence l .pending cs) d).state = .succeeded ↔
        allSucceeded (rexecList env cs d).out = true) := by
  constructor
  · intro env l pre post c d h1 h2
    have happ := rexecList_append env pre (.cons c post) d
    simp [rexec, happ, h1, rexecList, h2]
  · intro env l cs d
    simpa [rexec] using rexecList_succeeded_iff env cs d

/-- C1 witness: a concrete sequence whose second child is a failing waypoint
stops right there, leaving the third child untouched. -/
theorem claim_sequence_order_short_circuit_witness :
    rexec witnessEnv
      (.sequence "s" .pending
        (appendForest
          (.cons (.setData "set" (some "t0") .pending [("k", "v")]) .nil)
          (.cons (.waypoint "fail" (some "t1") .pending ⟨0, 0, 0, "map", "bad"⟩)
            (.cons (.waypoint "never" (some "t2") .pending ⟨0, 0, 0, "map", "ok"⟩)
              .nil))))
      [] =
      ⟨.failed, [.leafRun "set", .taskComplete "t0", .leafRun "fail"], [("k", "v")],
        .sequence "s" .failed
          (appendForest
            (.cons (.setData "set" (some "t0") .succeeded [("k", "v")]) .nil)
            (.cons (.waypoint "fail" (some "t1") .failed ⟨0, 0, 0, "map", "bad"⟩)
              (.cons (.waypoint "never" (some "t2") .pending ⟨0, 0, 0, "map", "ok"⟩)
                .nil)))⟩ := by
  have h := claim_sequence_order_short_circuit.1 witnessEnv "s"
    (.cons (.setData "set" (some "t0") .pending [("k", "v")]) .nil)
    (.cons (.waypoint "never" (some "t2") .pending ⟨0, 0, 0, "map", "ok"⟩) .nil)
    (.waypoint "fail" (some "t1") .pending ⟨0, 0, 0, "map", "bad"⟩)
    [] (by decide) (by decide)
  rw [h]
  decide

/-- C2 counterexample: an execution of a compiled conditional node on which
the expression evaluation errors runs NEITHER branch — no branch effect is
emitted, both branch node lists are left untouched (still `PENDING`) and no
selection is recorded — contradicting the claim that every execution of a
conditional instantiates and runs exactly one branch ("never neither"). -/
theorem claim_if_exactly_one_branch_counterexample :
    (rexec errorEnv
      (.conditional "if" none .pending "x" none
        (.cons (.waypoint "then-wp" (some "tA") .pending ⟨0, 0, 0, "map", "wpA"⟩) .nil)
        (.cons (.waypoint "else-wp" (some "tB") .pending ⟨0, 0, 0, "map", "wpB"⟩) .nil))
      []).effects = [] ∧
    (rexec errorEnv
      (.conditional "if" none .pending "x" none
        (.cons (.waypoint "then-wp" (some "tA") .pending ⟨0, 0, 0, "map", "wpA"⟩) .nil)
        (.cons (.waypoint "else-wp" (some "tB") .pending ⟨0, 0, 0, "map", "wpB"⟩) .nil))
      []).out =
      .conditional "if" none .failed "x" none
        (.cons (.waypoint "then-wp" (some "tA") .pending ⟨0, 0, 0, "map", "wpA"⟩) .nil)
        (.cons (.waypoint "else-wp" (some "tB") .pending ⟨0, 0, 0, "map", "wpB"⟩) .nil) ∧
    Effect.leafRun "then-wp" ∉
      (rexec errorEnv
        (.conditional "if" none .pending "x" none
          (.cons (.waypoint "then-wp" (some "tA") .pending ⟨0, 0, 0, "map", "wpA"⟩) .nil)
          (.cons (.waypoint "else-wp" (some "tB") .pending ⟨0, 0, 0, "map", "wpB"⟩) .nil))
        []).effects ∧
    Effect.leafRun "else-wp" ∉
      (rexec errorEnv
        (.conditional "if" none .pending "x" none
          (.cons (.waypoint "then-wp" (some "tA") .pending ⟨0, 0, 0, "map", "wpA"⟩) .nil)
          (.cons (.waypoint "else-wp" (some "tB") .pending ⟨0, 0, 0, "map", "wpB"⟩) .nil))
        []).effects := by
  decide

/-- C2 (amended): on every execution of a fresh conditional node whose
expression evaluates successfully, exactly one of the two branches is run to
completion — the result is exactly the outcome of running the selected branch
list — and the unselected branch is never instantiated: it survives untouched
in the resulting node while the selection is recorded. (On an expression
evaluation error, covered separately, no branch runs and the node fails.) -/
theorem claim_if_exactly_one_branch (env : ExecEnv) (l : String) (ct : Option String)
    (e : String) (tns ens : SForest) (d : Data) (b : Bool)
    (he : env.evalExpr e d = .ok b) :
    rexec env (.conditional l ct .pending e none tns ens) d =
      condResult l ct e b tns ens (rexecList env (if b then tns else ens) d) ∧
    (b = true → ∃ st, (rexec env (.conditional l ct .pending e none tns ens) d).out =
      .conditional l ct st e (some true) (rexecList env tns d).out ens) ∧
    (b = false → ∃ st, (rexec env (.conditional l ct .pending e none tns ens) d).out =
      .conditional l ct st e (some false) tns (rexecList env ens d).out) := by
  refine ⟨?_, ?_, ?_⟩
  · cases b <;> simp [rexec, he]
  · rintro rfl
    by_cases hs : (rexecList env tns d).state = .succeeded
    · exact ⟨.succeeded, by simp [rexec, he, condResult, hs]⟩
    · exact ⟨(rexecList env tns d).state, by simp [rexec, he, condResult, hs]⟩
  · rintro rfl
    by_cases hs : (rexecList env ens d).state = .succeeded
    · exact ⟨.succeeded, by simp [rexec, he, condResult, hs]⟩
    · exact ⟨(rexecList env ens d).state, by simp [rexec, he, condResult, hs]⟩

/-- C2 witness: the demo evaluator decides `0 > 1` to false and the else
branch alone runs. -/
theorem claim_if_exactly_one_branch_witness :
    rexec exampleEnv
      (.conditional "if" none .pending "0 > 1" none
        (.cons (.waypoint "A" (some "tA") .pending ⟨0, 0, 0, "map", "wpA"⟩) .nil)
        (.cons (.setData "B" (some "tB") .pending [("x", "1")]) .nil))
      [] =
      condResult "if" none "0 > 1" false
        (.cons (.waypoint "A" (some "tA") .pending ⟨0, 0, 0, "map", "wpA"⟩) .nil)
        (.cons (.setData "B" (some "tB") .pending [("x", "1")]) .nil)
        (rexecList exampleEnv
          (if false then
            (.cons (.waypoint "A" (some "tA") .pending ⟨0, 0, 0, "map", "wpA"⟩) .nil)
          else
            (.cons (.setData "B" (some "tB") .pending [("x", "1")]) .nil))
          []) :=
  (claim_if_exactly_one_branch exampleEnv "if" none "0 > 1"
    (.cons (.waypoint "A" (some "tA") .pending ⟨0, 0, 0, "map", "wpA"⟩) .nil)
    (.cons (.setData "B" (some "tB") .pending [("x", "1")]) .nil)
    [] false (by rfl)).1

/-- C3: checkpoint round trip. Serializing the in-progress tree left by any
interrupted run yields a plain record from which exactly the same tree is
reconstructed; resuming any tree so reconstructed reaches the same terminal
state, effect trace (the interrupted run's effects followed by the resumed
run's) and data as the uninterrupted run; and a node that was `SUCCEEDED`
before the checkpoint is never re-executed on resume — it yields no effects
and stays untouched. -/
theorem claim_checkpoint_roundtrip (env : ExecEnv) (fuel : Nat) (t : SNode) (d : Data) :
    loadNode (dumpNode (pexec env fuel t d).out) = .ok (pexec env fuel t d).out ∧
    (∀ t2 : SNode, loadNode (dumpNode (pexec env fuel t d).out) = .ok t2 →
      rexec env t d = resumed env
        ⟨(pexec env fuel t d).fuel, (pexec env fuel t d).state,
         (pexec env fuel t d).effects, (pexec env fuel t d).data, t2⟩) ∧
    (∀ (s : SNode) (d2 : Data), s.state = .succeeded →
      rexec env s d2 = ⟨.succeeded, [], d2, s⟩) := by
  refine ⟨loadNode_dumpNode _, ?_, ?_⟩
  · intro t2 h
    rw [loadNode_dumpNode] at h
    injection h with h2
    subst h2
    exact rexec_resume env fuel t d
  · intro s d2 hs
    have hterm : s.state.isTerminal = true := by rw [hs]; rfl
    rw [rexec_skip env s d2 hterm, hs]

/-- C3 witness: the demo tree interrupted after two leaf executions
round-trips through serialization, and resuming completes it exactly as the
uninterrupted run; an already-`SUCCEEDED` leaf is skipped untouched. -/
theorem claim_checkpoint_roundtrip_witness :
    loadNode (dumpNode (pexec exampleEnv 2 exampleTree []).out) =
      .ok (pexec exampleEnv 2 exampleTree []).out ∧
    rexec exampleEnv exampleTree [] = resumed exampleEnv
      ⟨(pexec exampleEnv 2 exampleTree []).fuel, (pexec exampleEnv 2 exampleTree []).state,
       (pexec exampleEnv 2 exampleTree []).effects, (pexec exampleEnv 2 exampleTree []).data,
       (pexec exampleEnv 2 exampleTree []).out⟩ ∧
    rexec exampleEnv (.setData "done" (some "t9") .succeeded [("a", "b")]) [] =
      ⟨.succeeded, [], [], .setData "done" (some "t9") .succeeded [("a", "b")]⟩ := by
  have h := claim_checkpoint_roundtrip exampleEnv 2 exampleTree []
  exact ⟨h.1, h.2.1 (pexec exampleEnv 2 exampleTree []).out (by rfl),
    h.2.2 (.setData "done" (some "t9") .succeeded [("a", "b")]) [] (by rfl)⟩

/-- C4: the demo mission of `src/example.py` — steps `[SetData, SetData,
PoseWaypoint(wp1), If ("0 > 1") {then: waypoint wpA, else: waypoint wpB}]` —
compiles to the expected tree and, under any environment in which `0 > 1`
evaluates to false and navigation succeeds, executes to terminal state
`SUCCEEDED` with the steps' effects in step order: the two `SetData` steps,
waypoint wp1, then the else-branch waypoint wpB; every step's `completeTask`
is reported in step order, and the then-branch waypoint is never
instantiated (no effect of it appears and its node stays `PENDING` in the
final tree). -/
theorem claim_example_mission (env : ExecEnv)
    (he : env.evalExpr "0 > 1" [("key", "value"), ("key2", "value2")] = .ok false)
    (hn : ∀ p : Pose, env.navigate p = true) :
    buildTree exampleDefinition = .ok exampleTree ∧
    rexec env exampleTree [] =
      ⟨.succeeded, exampleEffects, [("key", "value"), ("key2", "value2")],
        exampleTreeFinal⟩ ∧
    taskCompletions exampleEffects = ["step 0", "step 1", "step 2", "step 4"] ∧
    Effect.leafRun "go to waypoint A" ∉ exampleEffects ∧
    Effect.taskComplete "step 3" ∉ exampleEffects := by
  refine ⟨by rfl, ?_, by decide, by decide, by decide⟩
  simp [exampleTree, exampleTreeFinal, exampleEffects, rexec, rexecList, hn, he,
    mergeData, insertKV, completionEffects, condResult]

/-- C4 witness: the concrete demo evaluator and an always-arriving robot
satisfy the environment hypotheses. -/
theorem claim_example_mission_witness :
    buildTree exampleDefinition = .ok exampleTree ∧
    rexec exampleEnv exampleTree [] =
      ⟨.succeeded, exampleEffects, [("key", "value"), ("key2", "value2")],
        exampleTreeFinal⟩ := by
  have h := claim_example_mission exampleEnv (by rfl) (fun p => rfl)
  exact ⟨h.1, h.2.1⟩

/-- C5: submitting a mission while a live worker already owns its id fails
with `AlreadyRunning` (the submission only returns the error, so the pool is
left unchanged); once the first mission is finalized on reaching a terminal
state, no live worker owns the id any more and submitting the same id
succeeds, scheduling a fresh worker and persisting the initial checkpoint. -/
theorem claim_already_running (p : WorkerPool) (m : Mission)
    (opts : MissionRuntimeOptions) :
    (p.hasLiveWorker m.id = true → submitWork p m opts = .error .alreadyRunning) ∧
    (finalizeWorker p m.id).hasLiveWorker m.id = false ∧
    (∀ tree : SNode, buildTree m.definition = .ok tree →
      submitWork (finalizeWorker p m.id) m opts =
        .ok { started := (finalizeWorker p m.id).started,
              workers := ⟨m.id, tree⟩ :: (finalizeWorker p m.id).workers,
              db := saveCheckpoint (finalizeWorker p m.id).db m.id (dumpNode tree) }) := by
  refine ⟨?_, hasLiveWorker_finalize p m.id, ?_⟩
  · intro h
    simp [submitWork, h]
  · intro tree htree
    simp [submitWork, hasLiveWorker_finalize, htree]

/-- C5 witness: a pool whose live worker owns `"m1"` rejects a second
submission of `"m1"`, and accepts it again after finalization. -/
theorem claim_already_running_witness :
    submitWork demoPool demoMission ⟨none, none, none⟩ = .error .alreadyRunning ∧
    submitWork (finalizeWorker demoPool "m1") demoMission ⟨none, none, none⟩ =
      .ok { started := (finalizeWorker demoPool "m1").started,
            workers := ⟨"m1", .sequence "d" .pending .nil⟩ ::
              (finalizeWorker demoPool "m1").workers,
            db := saveCheckpoint (finalizeWorker demoPool "m1").db "m1"
              (dumpNode (.sequence "d" .pending .nil)) } := by
  have h := claim_already_running demoPool demoMission ⟨none, none, none⟩
  exact ⟨h.1 (by rfl), h.2.2 (.sequence "d" .pending .nil) (by rfl)⟩

/-- C6: node lifecycle states follow the machine
`PENDING → RUNNING → {SUCCEEDED, FAILED, CANCELLED}` and are monotonic: the
machine has no transition out of a terminal state, no chain of transitions
leaves a terminal state, the engine's node execution only moves a node's
state along the machine, and a node already in a terminal state is left in
exactly that state (it is skipped unchanged, so no terminal state is
re-entered). -/
theorem claim_state_machine_monotonic :
    (∀ s s' : NodeState, s.isTerminal = true → ¬ NodeTransition s s') ∧
    (∀ s s' : NodeState, s.isTerminal = true →
      Relation.ReflTransGen NodeTransition s s' → s' = s) ∧
    (∀ (env : ExecEnv) (t : SNode) (d : Data),
      Relation.ReflTransGen NodeTransition t.state (rexec env t d).state) ∧
    (∀ (env : ExecEnv) (t : SNode) (d : Data), t.state.isTerminal = true →
      rexec env t d = ⟨t.state, [], d, t⟩) := by
  refine ⟨noTransition_of_terminal, terminal_sticky, ?_, rexec_skip⟩
  intro env t d
  by_cases h : t.state.isTerminal = true
  · rw [rexec_skip env t d h]
  · have hterm := rexec_terminal env t d
    cases hst : t.state with
    | pending => exact .head .start (running_reaches _ hterm)
    | running => exact running_reaches _ hterm
    | succeeded => rw [hst] at h; simp at h
    | failed => rw [hst] at h; simp at h
    | cancelled => rw [hst] at h; simp at h

/-- C6 witness: terminal states are sticky in the machine and under the
engine, at concrete inputs. -/
theorem claim_state_machine_monotonic_witness :
    ¬ NodeTransition .succeeded .running ∧
    (NodeState.failed : NodeState) = .failed ∧
    rexec exampleEnv (.waypoint "w" none .cancelled ⟨0, 0, 0, "map", "wp"⟩) [] =
      ⟨.cancelled, [], [], .waypoint "w" none .cancelled ⟨0, 0, 0, "map", "wp"⟩⟩ := by
  have h := claim_state_machine_monotonic
  exact ⟨h.1 .succeeded .running (by rfl), h.2.1 .failed .failed (by rfl) .refl,
    h.2.2.2 exampleEnv (.waypoint "w" none .cancelled ⟨0, 0, 0, "map", "wp"⟩) [] (by rfl)⟩

/-- C7: a step whose kind the node builder does not recognize fails tree
compilation at build time with `UnsupportedStepKind` — it is never silently
skipped (any step list containing one fails to compile, as does the mission
definition), and the mission never starts: submission of such a mission
returns a compilation error and schedules nothing. -/
theorem claim_unsupported_step_kind :
    (∀ k l : String, buildNode (.unknown k l) = .error (.unsupportedStepKind k)) ∧
    (∀ ss : Steps, stepsWellFormed ss = false →
      ∃ k, buildForest ss = .error (.unsupportedStepKind k)) ∧
    (∀ md : MissionDefinition, stepsWellFormed md.steps = false →
      ∃ k, buildTree md = .error (.unsupportedStepKind k)) ∧
    (∀ (p : WorkerPool) (m : Mission) (opts : MissionRuntimeOptions)
        (ce : CompilationError),
      p.hasLiveWorker m.id = false → buildTree m.definition = .error ce →
      submitWork p m opts = .error (.compilation ce)) := by
  refine ⟨fun k l => rfl, buildForest_error_of_not_wf, ?_, ?_⟩
  · intro md h
    obtain ⟨k, hk⟩ := buildForest_error_of_not_wf md.steps h
    exact ⟨k, by simp [buildTree, hk]⟩
  · intro p m opts ce h1 h2
    simp [submitWork, h1, h2]

/-- C7 witness: a mission whose step list contains an unrecognized kind fails
to compile and its submission fails, at concrete inputs. -/
theorem claim_unsupported_step_kind_witness :
    buildNode (.unknown "teleport" "l") = .error (.unsupportedStepKind "teleport") ∧
    (∃ k, buildForest (.cons (.unknown "teleport" "l") .nil) =
      .error (.unsupportedStepKind k)) ∧
    submitWork (WorkerPool.init [])
      ⟨"m2", "r1", ⟨"bad", .cons (.unknown "teleport" "l") .nil⟩, []⟩
      ⟨none, none, none⟩ = .error (.compilation (.unsupportedStepKind "teleport")) := by
  have h := claim_unsupported_step_kind
  exact ⟨h.1 "teleport" "l",
    h.2.1 (.cons (.unknown "teleport" "l") .nil) (by rfl),
    h.2.2.2 (WorkerPool.init [])
      ⟨"m2", "r1", ⟨"bad", .cons (.unknown "teleport" "l") .nil⟩, []⟩
      ⟨none, none, none⟩ (.unsupportedStepKind "teleport") (by rfl) (by rfl)⟩

/-- C8: `shutdown()` is total (it never errors — it is a total function of
the pool) and idempotent on the pool's visible state: a second call returns
the identical pool; after it returns no live worker remains; and calling it
on a pool that was never started is harmless — the pool is returned exactly
as constructed. -/
theorem claim_shutdown_idempotent (p : WorkerPool) (db : List (String × DumpRec)) :
    shutdown (shutdown p) = shutdown p ∧
    (shutdown p).workers = [] ∧
    shutdown (WorkerPool.init db) = WorkerPool.init db :=
  ⟨rfl, rfl, rfl⟩

/-- C9: when a conditional node's expression evaluation returns an error, the
node ends `FAILED` with no effects — the error is never treated as the
expression evaluating to false: neither branch is instantiated (both are left
untouched, no selection is recorded) — and the failure propagates to the
mission: a mission tree whose sequence reaches that conditional ends `FAILED`
with no retry (the conditional is left terminally `FAILED`, so a re-run
re-executes nothing). -/
theorem claim_eval_error_fails (env : ExecEnv) (lc ls : String) (ct : Option String)
    (e : String) (tns ens rest : SForest) (d : Data) (msg : String)
    (he : env.evalExpr e d = .error msg) :
    rexec env (.conditional lc ct .pending e none tns ens) d =
      ⟨.failed, [], d, .conditional lc ct .failed e none tns ens⟩ ∧
    rexec env
      (.sequence ls .pending (.cons (.conditional lc ct .pending e none tns ens) rest))
      d =
      ⟨.failed, [], d,
        .sequence ls .failed
          (.cons (.conditional lc ct .failed e none tns ens) rest)⟩ ∧
    rexec env (.conditional lc ct .failed e none tns ens) d =
      ⟨.failed, [], d, .conditional lc ct .failed e none tns ens⟩ := by
  refine ⟨?_, ?_, by rfl⟩
  · simp [rexec, he]
  · simp [rexec, rexecList, he]

/-- C9 witness: an evaluator that errors on an undefined variable fails the
conditional and its mission, at concrete inputs. -/
theorem claim_eval_error_fails_witness :
    rexec errorEnv (.conditional "if" none .pending "undefined_var" none
        (.cons (.setData "T" none .pending [("a", "1")]) .nil)
        (.cons (.setData "E" none .pending [("b", "2")]) .nil)) [] =
      ⟨.failed, [], [],
        .conditional "if" none .failed "undefined_var" none
          (.cons (.setData "T" none .pending [("a", "1")]) .nil)
          (.cons (.setData "E" none .pending [("b", "2")]) .nil)⟩ ∧
    rexec errorEnv
      (.sequence "mission" .pending
        (.cons (.conditional "if" none .pending "undefined_var" none
            (.cons (.setData "T" none .pending [("a", "1")]) .nil)
            (.cons (.setData "E" none .pending [("b", "2")]) .nil))
          (.cons (.setData "after" none .pending [("c", "3")]) .nil))) [] =
      ⟨.failed, [], [],
        .sequence "mission" .failed
          (.cons (.conditional "if" none .failed "undefined_var" none
              (.cons (.setData "T" none .pending [("a", "1")]) .nil)
              (.cons (.setData "E" none .pending [("b", "2")]) .nil))
            (.cons (.setData "after" none .pending [("c", "3")]) .nil))⟩ := by
  have h := claim_eval_error_fails errorEnv "if" "mission" none "undefined_var"
    (.cons (.setData "T" none .pending [("a", "1")]) .nil)
    (.cons (.setData "E" none .pending [("b", "2")]) .nil)
    (.cons (.setData "after" none .pending [("c", "3")]) .nil)
    [] "undefined variable" (by rfl)
  exact ⟨h.1, h.2.1⟩

/-- C10: `MyWaypointNode.dump_object` returns the base node record extended
with a copy of the node's waypoint — the copy is a freshly constructed value
equal to the original — and `from_object` applied to a context and the dumped
waypoint yields a node whose waypoint equals the original's, so the
serialize/deserialize pair round-trips the waypoint (in this pure embedding a
record holds its own value, so changing the dumped record cannot reach the
node). -/
theorem claim_waypoint_dump_roundtrip (n : MyWaypointNode)
    (ctx : BehaviorTreeBuilderContext) :
    n.dump_object = ⟨n.label, n.state, some n.waypoint.copy⟩ ∧
    n.waypoint.copy = n.waypoint ∧
    (∀ w : Pose, (n.dump_object).waypoint = some w →
      (MyWaypointNode.from_object ctx w n.label n.state).waypoint = n.waypoint) ∧
    (MyWaypointNode.from_object ctx n.waypoint n.label n.state).robot_id =
      ctx.robot_api.robot_id := by
  refine ⟨rfl, rfl, ?_, rfl⟩
  intro w hw
  simp only [MyWaypointNode.dump_object, Option.some.injEq] at hw
  simp [MyWaypointNode.from_object, ← hw, Pose.copy]

/-- C10 witness: a concrete waypoint node round-trips through
`dump_object`/`from_object`. -/
theorem claim_waypoint_dump_roundtrip_witness :
    (MyWaypointNode.dump_object ⟨some "go", .running, ⟨1, 2, 3, "map", "w"⟩, "r1"⟩) =
      ⟨some "go", .running, some (Pose.copy ⟨1, 2, 3, "map", "w"⟩)⟩ ∧
    (MyWaypointNode.from_object ⟨⟨"r1"⟩⟩ ⟨1, 2, 3, "map", "w"⟩ (some "go") .running).waypoint =
      (⟨1, 2, 3, "map", "w"⟩ : Pose) := by
  have h := claim_waypoint_dump_roundtrip ⟨some "go", .running, ⟨1, 2, 3, "map", "w"⟩, "r1"⟩
    ⟨⟨"r1"⟩⟩
  exact ⟨h.1, h.2.2.1 ⟨1, 2, 3, "map", "w"⟩ (by rfl)⟩

end EdgeExecutor
